import Mathlib

/-!
Verification of the speaker-session and state-reconciliation core of
`app/speaker_api.py`.

The Python functions operate on JSON-shaped values (nested dicts, lists,
strings, `None`).  We embed those values as the inductive type `PyVal`;
Python dictionaries become association lists preserving insertion order
(CPython dicts iterate in insertion order).  A Python expression that can
raise is embedded as an `Option`-valued function, `Option.none` standing
for "an exception propagates".

Known, deliberate simplifications of the embedding, none of which is
exercised by any concrete input appearing below: dictionary and list
equality under Python `==` is modelled structurally (order-sensitive for
dicts); `int(...)` does not accept underscore digit separators; `.upper()`
and `str.strip` handle ASCII the way Python does but may differ on exotic
Unicode.  Numeric cross-type equality (`True == 1`) is modelled.
-/

inductive PyVal where
  | none : PyVal
  | bool : Bool → PyVal
  | int : Int → PyVal
  | str : String → PyVal
  | list : List PyVal → PyVal
  | dict : List (String × PyVal) → PyVal
deriving Repr

instance : Inhabited PyVal := ⟨PyVal.none⟩

mutual

/-- Structural equality test on embedded Python values. -/
def pyBeq : PyVal → PyVal → Bool
  | PyVal.none, PyVal.none => true
  | PyVal.bool a, PyVal.bool b => a == b
  | PyVal.int a, PyVal.int b => a == b
  | PyVal.str a, PyVal.str b => a == b
  | PyVal.list xs, PyVal.list ys => pyBeqList xs ys
  | PyVal.dict xs, PyVal.dict ys => pyBeqDict xs ys
  | _, _ => false

def pyBeqList : List PyVal → List PyVal → Bool
  | [], [] => true
  | x :: xs, y :: ys => pyBeq x y && pyBeqList xs ys
  | _, _ => false

def pyBeqDict : List (String × PyVal) → List (String × PyVal) → Bool
  | [], [] => true
  | x :: xs, y :: ys => x.1 == y.1 && pyBeq x.2 y.2 && pyBeqDict xs ys
  | _, _ => false

end

instance : BEq PyVal := ⟨pyBeq⟩

/-- Python truthiness (`bool(v)`). -/
def pyTruthy : PyVal → Bool
  | PyVal.none => false
  | PyVal.bool b => b
  | PyVal.int n => n != 0
  | PyVal.str s => s != ""
  | PyVal.list xs => !xs.isEmpty
  | PyVal.dict kvs => !kvs.isEmpty

/-- Python `==`: numeric cross-type equality between `bool` and `int`,
structural equality otherwise. -/
def pyEq (a b : PyVal) : Bool :=
  match a, b with
  | PyVal.bool x, PyVal.int n => (if x then (1 : Int) else 0) == n
  | PyVal.int n, PyVal.bool x => n == (if x then (1 : Int) else 0)
  | _, _ => a == b

/-- Python `v.get(k, d)`.  Succeeds only when `v` is a dict (otherwise the
attribute access raises); returns the stored value or the default `d`. -/
def dictGetD : PyVal → String → PyVal → Option PyVal
  | PyVal.dict kvs, k, d => some ((kvs.lookup k).getD d)
  | _, _, _ => Option.none

/-- Total lookup used in specification statements: the value stored under
`k` when `v` is a dict containing `k`, and `PyVal.none` otherwise. -/
def pyGet (v : PyVal) (k : String) : PyVal :=
  match v with
  | PyVal.dict kvs => (kvs.lookup k).getD PyVal.none
  | _ => PyVal.none

/-- Python `v.items()`. -/
def pyItems : PyVal → Option (List (String × PyVal))
  | PyVal.dict kvs => some kvs
  | _ => Option.none

/-- Python `for x in v`: lists yield their elements, strings their
characters (as 1-character strings), dicts their keys; other values are
not iterable and raise. -/
def pyIter : PyVal → Option (List PyVal)
  | PyVal.list xs => some xs
  | PyVal.str s => some (s.data.map fun c => PyVal.str (String.mk [c]))
  | PyVal.dict kvs => some (kvs.map fun kv => PyVal.str kv.1)
  | _ => Option.none

/-- Accumulating decimal-digit parser for `pyInt?`. -/
def digitsVal : List Char → Nat → Option Nat
  | [], acc => some acc
  | c :: rest, acc =>
      if c.isDigit then digitsVal rest (acc * 10 + (c.toNat - 48)) else Option.none

/-- Characters of `s` with surrounding whitespace removed. -/
def stripChars (s : String) : List Char :=
  ((s.data.dropWhile Char.isWhitespace).reverse.dropWhile Char.isWhitespace).reverse

/-- Python `int(s)` on a string: optional sign, at least one digit. -/
def pyInt? (s : String) : Option Int :=
  match stripChars s with
  | [] => Option.none
  | '+' :: rest =>
      if rest.isEmpty then Option.none else (digitsVal rest 0).map Int.ofNat
  | '-' :: rest =>
      if rest.isEmpty then Option.none else (digitsVal rest 0).map (fun n => -(Int.ofNat n))
  | cs => (digitsVal cs 0).map Int.ofNat

/-- ASCII uppercase of one character, as in Python `str.upper`. -/
def chUpper (c : Char) : Char :=
  if 97 ≤ c.toNat ∧ c.toNat ≤ 122 then Char.ofNat (c.toNat - 32) else c

/-- Python `s.upper()` on a string. -/
def pyUpper (s : String) : String := String.mk (s.data.map chUpper)

/-- Python `v.upper()`: succeeds only on strings. -/
def pyUpperStr : PyVal → Option String
  | PyVal.str s => some (pyUpper s)
  | _ => Option.none

example : pyUpperStr (PyVal.str "Spotify") = some "SPOTIFY" := rfl
example : pyInt? "  12 " = some 12 := rfl
example : pyInt? "-3" = some (-3) := rfl
example : pyInt? "x3" = Option.none := rfl
example : pyEq (PyVal.bool true) (PyVal.int 1) = true := rfl
example : pyEq PyVal.none PyVal.none = true := rfl
example : pyEq PyVal.none (PyVal.str "") = false := rfl

/-!
## Preset Matcher — `find_current_preset(now_playing, presets_data)`

Embeds `app/speaker_api.py`, lines 234-272.  The phases of the Python
function are named separately so theorems can refer to them:
field extraction, the account-matching scan (`matching_presets`), and the
location tie-break.
-/

/-- `now_playing.get("container", {}).get("contentItem", {})`. -/
def npItemOf (now_playing : PyVal) : Option PyVal :=
  match dictGetD now_playing "container" (PyVal.dict []) with
  | some c => dictGetD c "contentItem" (PyVal.dict [])
  | Option.none => Option.none

/-- `np_item.get("sourceAccount")`. -/
def npAccountOf (now_playing : PyVal) : Option PyVal :=
  match npItemOf now_playing with
  | some i => dictGetD i "sourceAccount" PyVal.none
  | Option.none => Option.none

/-- `np_item.get("location")`. -/
def npLocationOf (now_playing : PyVal) : Option PyVal :=
  match npItemOf now_playing with
  | some i => dictGetD i "location" PyVal.none
  | Option.none => Option.none

/-- `presets_data.get("presets", {}).get("presets", {})`. -/
def presetsOf (presets_data : PyVal) : Option PyVal :=
  match dictGetD presets_data "presets" (PyVal.dict []) with
  | some p => dictGetD p "presets" (PyVal.dict [])
  | Option.none => Option.none

/-- Inner loop of the scan: `for action in actions`, appending
`(int(preset_number), content_item)` whenever the action's
`payload.contentItem.sourceAccount` equals the snapshot account. -/
def collectFromActions (np_account : PyVal) (preset_number : String) :
    List PyVal → Option (List (Int × PyVal))
  | [] => some []
  | a :: rest =>
    match dictGetD a "payload" (PyVal.dict []) with
    | Option.none => Option.none
    | some pl =>
      match dictGetD pl "contentItem" (PyVal.dict []) with
      | Option.none => Option.none
      | some ci =>
        match dictGetD ci "sourceAccount" PyVal.none with
        | Option.none => Option.none
        | some pa =>
          if pyEq pa np_account then
            match pyInt? preset_number with
            | Option.none => Option.none
            | some n =>
              match collectFromActions np_account preset_number rest with
              | Option.none => Option.none
              | some ms => some ((n, ci) :: ms)
          else collectFromActions np_account preset_number rest

/-- Outer loop of the scan: `for preset_number, preset in presets.items()`,
reading `preset.get("actions", [])` and iterating it. -/
def collectMatches (np_account : PyVal) :
    List (String × PyVal) → Option (List (Int × PyVal))
  | [] => some []
  | kp :: rest =>
    match dictGetD kp.2 "actions" (PyVal.list []) with
    | Option.none => Option.none
    | some acts =>
      match pyIter acts with
      | Option.none => Option.none
      | some l =>
        match collectFromActions np_account kp.1 l with
        | Option.none => Option.none
        | some here =>
          match collectMatches np_account rest with
          | Option.none => Option.none
          | some there => some (here ++ there)

/-- Location tie-break loop over `matching_presets`: the first entry whose
`content_item.get("location")` equals the snapshot location, if any. -/
def findLocationMatch (np_location : PyVal) :
    List (Int × PyVal) → Option (Option Int)
  | [] => some Option.none
  | e :: rest =>
    match dictGetD e.2 "location" PyVal.none with
    | Option.none => Option.none
    | some l =>
      if pyEq l np_location then some (some e.1) else findLocationMatch np_location rest

/-- `find_current_preset(now_playing, presets_data)`, lines 234-272 of
`app/speaker_api.py`. -/
def find_current_preset (now_playing presets_data : PyVal) : Option Int :=
  match npAccountOf now_playing with
  | Option.none => Option.none
  | some np_account =>
    match npLocationOf now_playing with
    | Option.none => Option.none
    | some np_location =>
    (match presetsOf presets_data with
     | some ps =>
       (match pyItems ps with
        | some items =>
          (match collectMatches np_account items with
           | some [] => some 0
           | some [e] => some e.1
           | some (e₀ :: e₁ :: rest) =>
             (match findLocationMatch np_location (e₀ :: e₁ :: rest) with
              | some (some n) => some n
              | some Option.none => some e₀.1
              | Option.none => Option.none)
           | Option.none => Option.none)
        | Option.none => Option.none)
     | Option.none => Option.none)

/-- Executable form of "some action of this preset entry matches the
snapshot account", used in claim statements. -/
def actionMatchesB (np_account : PyVal) (a : PyVal) : Bool :=
  match dictGetD a "payload" (PyVal.dict []) with
  | some pl =>
    (match dictGetD pl "contentItem" (PyVal.dict []) with
     | some ci =>
       (match dictGetD ci "sourceAccount" PyVal.none with
        | some pa => pyEq pa np_account
        | Option.none => false)
     | Option.none => false)
  | Option.none => false

/-- Executable form of "this preset-table entry has an account-matching
action", used in claim statements. -/
def presetEntryMatchesB (np_account : PyVal) (kp : String × PyVal) : Bool :=
  match dictGetD kp.2 "actions" (PyVal.list []) with
  | some acts =>
    (match pyIter acts with
     | some l => l.any (actionMatchesB np_account)
     | Option.none => false)
  | Option.none => false

/-- Spec §8 scenario table: presets 1 and 2 on account `spotify:user1`,
preset 2 at `playlistB`. -/
def presetEntryA1 : PyVal :=
  PyVal.dict [("actions", PyVal.list [PyVal.dict [("payload", PyVal.dict
    [("contentItem", PyVal.dict [("sourceAccount", PyVal.str "spotify:user1")])])]])]

def presetEntryA2 : PyVal :=
  PyVal.dict [("actions", PyVal.list [PyVal.dict [("payload", PyVal.dict
    [("contentItem", PyVal.dict [("sourceAccount", PyVal.str "spotify:user1"),
                                 ("location", PyVal.str "playlistB")])])]])]

def itemsA : List (String × PyVal) := [("1", presetEntryA1), ("2", presetEntryA2)]

def pdA : PyVal := PyVal.dict [("presets", PyVal.dict [("presets", PyVal.dict itemsA)])]

/-- Snapshot playing `spotify:user1` at `playlistB`. -/
def npA : PyVal :=
  PyVal.dict [("container", PyVal.dict [("contentItem", PyVal.dict
    [("sourceAccount", PyVal.str "spotify:user1"), ("location", PyVal.str "playlistB")])])]

/-- Same account, location `playlistC` (matches no stored location). -/
def npC : PyVal :=
  PyVal.dict [("container", PyVal.dict [("contentItem", PyVal.dict
    [("sourceAccount", PyVal.str "spotify:user1"), ("location", PyVal.str "playlistC")])])]

/-- The ordered account-match list for `npA`/`npC` against `pdA`. -/
def mA : List (Int × PyVal) :=
  [(1, PyVal.dict [("sourceAccount", PyVal.str "spotify:user1")]),
   (2, PyVal.dict [("sourceAccount", PyVal.str "spotify:user1"),
                   ("location", PyVal.str "playlistB")])]

example : collectMatches (PyVal.str "spotify:user1") itemsA = some mA := rfl
example : find_current_preset npA pdA = some 2 := rfl
example : find_current_preset npC pdA = some 1 := rfl
example : find_current_preset npA (PyVal.dict []) = some 0 := rfl

/-!
## State Normalizer — `get_playback_status`

Embeds the pure computation of `app/speaker_api.py`, lines 394-434: the
two already-fetched snapshots (`power`, `playback`) and the cached global
`preset` are the inputs; the device calls themselves are outside the
component.  The `state`/`preset_number_playing` branch and the `source`
branch are named separately.
-/

/-- The fixed display-name → code enumeration (lines 411-426). -/
def sourceMapping : List (String × Int) :=
  [("INVALID_SOURCE", 0), ("AVSSIPSOURCE", 1), ("AIRPLAY", 2),
   ("CHROMECASTBUILTIN", 3), ("GVA", 4), ("SPOTIFY", 5), ("GROUPING", 6),
   ("ALEXA", 7), ("QPLAY", 8), ("UPNP", 9), ("PRODUCT", 10), ("SETUP", 11),
   ("BLUETOOTH", 12), ("TUNEIN", 13)]

/-- Lines 406-408: `state` and `preset_number_playing`.  The pair is
`(1, find_current_preset(...))` when `playback["state"]["status"] == 'PLAY'`
and `(0, 0)` otherwise. -/
def normalizePlayback (playback preset : PyVal) : Option (Int × Int) :=
  match dictGetD playback "state" PyVal.none with
  | Option.none => Option.none
  | some st =>
    if pyTruthy st then
      match dictGetD st "status" PyVal.none with
      | Option.none => Option.none
      | some status =>
        if pyEq status (PyVal.str "PLAY") then
          match find_current_preset playback preset with
          | Option.none => Option.none
          | some n => some (1, n)
        else some (0, 0)
    else some (0, 0)

/-- Lines 404 and 410-427: `source` starts as `''` and becomes the mapped
code only when `playback["source"]["sourceDisplayName"]` is truthy. -/
def normalizeSource (playback : PyVal) : Option PyVal :=
  match dictGetD playback "source" PyVal.none with
  | Option.none => Option.none
  | some src =>
    if pyTruthy src then
      match dictGetD src "sourceDisplayName" PyVal.none with
      | Option.none => Option.none
      | some dn =>
        if pyTruthy dn then
          match pyUpperStr dn with
          | Option.none => Option.none
          | some u => some (PyVal.int ((sourceMapping.lookup u).getD 0))
        else some (PyVal.str "")
    else some (PyVal.str "")

/-- The response record of `/playback/status` (lines 429-434). -/
structure NormalizedStatus where
  power_state : PyVal
  playback : Int
  source : PyVal
  preset_number : Int
deriving Repr

/-- The normalization in `get_playback_status` (lines 402-434), applied to
the already-fetched `power` and `playback` snapshots and the cached
`preset` table. -/
def get_playback_status (power playback preset : PyVal) : Option NormalizedStatus :=
  match normalizePlayback playback preset with
  | Option.none => Option.none
  | some sp =>
    (match normalizeSource playback with
     | Option.none => Option.none
     | some src =>
       (match dictGetD power "power" PyVal.none with
        | Option.none => Option.none
        | some pw => some ⟨pw, sp.1, src, sp.2⟩))

/-!
## Session Manager — `initialize_speaker`, `disconnect_speaker`,
`check_speaker_initialized`

The collaborators (`BoseAuth`, `BoseSpeaker`) are external to the
repository; their call outcomes are inputs of the model.  The process
state is the pair of globals `speaker_instance` and `preset`.
-/

/-- Outcomes of the external client used by one request: whether
`connect()` succeeds, what `get_product_settings()` returns (`Option.none`
= it raises), whether `disconnect()` succeeds, and the device id. -/
structure Client where
  deviceId : String
  connectOk : Bool
  productSettings : Option PyVal
  disconnectOk : Bool
deriving Repr

/-- Outcomes of the external auth provider: whether `getControlToken`
succeeds, whether the cached token is still valid, and whether
`do_token_refresh` succeeds. -/
structure Auth where
  loginOk : Bool
  tokenValid : Bool
  refreshOk : Bool
deriving Repr

/-- The module-level mutable state: `speaker_instance` and the cached
`preset` table (initially `None`). -/
structure AppState where
  speaker : Option Client
  preset : PyVal
deriving Repr

/-- Machine-readable error kinds raised at the REST boundary.
`initializationError` is the 500 of `/initialize`, `speakerNotInitialized`
the 400 of `check_speaker_initialized`/`/disconnect`, `disconnectionError`
the 500 of `/disconnect`, and `authError` the propagated failure of the
credential refresh inside `check_speaker_initialized`. -/
inductive ApiError where
  | initializationError
  | speakerNotInitialized
  | disconnectionError
  | authError
deriving DecidableEq, Repr

/-- `initialize_speaker` (lines 147-184): login, then assignment of the
new client to the global, then `connect()`, then the preset fetch; any
failure is caught by the surrounding `try` and re-raised as the 500
`InitializationError`.  Returns the endpoint result and the new state. -/
def initialize_speaker (auth : Auth) (newClient : Client) (s : AppState) :
    Except ApiError String × AppState :=
  if auth.loginOk = false then (Except.error ApiError.initializationError, s)
  else
    let s1 : AppState := { s with speaker := some newClient }
    if newClient.connectOk = false then (Except.error ApiError.initializationError, s1)
    else
      match newClient.productSettings with
      | Option.none => (Except.error ApiError.initializationError, s1)
      | some ps => (Except.ok newClient.deviceId, { s1 with preset := ps })

/-- `disconnect_speaker` (lines 186-213): 400 when no instance exists;
otherwise `speaker_instance = None` executes only after a successful
`disconnect()`, and a failing one raises the 500 `DisconnectionError`. -/
def disconnect_speaker (s : AppState) : Except ApiError String × AppState :=
  match s.speaker with
  | Option.none => (Except.error ApiError.speakerNotInitialized, s)
  | some c =>
    if c.disconnectOk then (Except.ok "disconnected", { s with speaker := Option.none })
    else (Except.error ApiError.disconnectionError, s)

/-- Observable interactions of one guarded endpoint call. -/
inductive Event where
  | refreshAttempt
  | deviceCall
deriving DecidableEq, Repr

/-- `check_speaker_initialized` (lines 216-231) followed by the endpoint's
device call: 400 when no instance exists; a single `do_token_refresh()`
when the token is invalid, whose failure propagates (the device call is
then never reached).  The event list records the interactions in order;
the function mutates no repository-owned state. -/
def endpoint_trace (auth : Auth) (s : AppState) : Except ApiError Unit × List Event :=
  match s.speaker with
  | Option.none => (Except.error ApiError.speakerNotInitialized, [])
  | some _ =>
    if auth.tokenValid then (Except.ok (), [Event.deviceCall])
    else if auth.refreshOk then (Except.ok (), [Event.refreshAttempt, Event.deviceCall])
    else (Except.error ApiError.authError, [Event.refreshAttempt])

example :
    get_playback_status (PyVal.dict [("power", PyVal.bool true)])
      (PyVal.dict [("state", PyVal.dict [("status", PyVal.str "PLAY")]),
                   ("source", PyVal.dict [("sourceDisplayName", PyVal.str "Spotify")]),
                   ("container", PyVal.dict [("contentItem", PyVal.dict
                      [("sourceAccount", PyVal.str "spotify:user1"),
                       ("location", PyVal.str "playlistB")])])]) pdA =
      some ⟨PyVal.bool true, 1, PyVal.int 5, 2⟩ := rfl

example : get_playback_status (PyVal.dict []) (PyVal.dict []) PyVal.none =
    some ⟨PyVal.none, 0, PyVal.str "", 0⟩ := rfl

/-! ## Helper lemmas -/

@[simp] lemma beq_pyVal (a b : PyVal) : (a == b) = pyBeq a b := rfl

lemma dictGetD_isDict {v : PyVal} {k : String} {d x : PyVal}
    (h : dictGetD v k d = some x) : ∃ kvs, v = PyVal.dict kvs := by
  cases v
  case dict kvs => exact ⟨kvs, rfl⟩
  all_goals cases h

lemma dictGetD_some {v : PyVal} {k : String} {x : PyVal}
    (h : dictGetD v k PyVal.none = some x) : x = pyGet v k := by
  cases v
  case dict kvs => exact (Option.some.inj h).symm
  all_goals cases h

lemma dictGetD_of_dict {v : PyVal} {kvs : List (String × PyVal)} (k : String)
    (h : v = PyVal.dict kvs) : dictGetD v k PyVal.none = some (pyGet v k) := by
  subst h; rfl

lemma pyGet_of_not_truthy {v : PyVal} (k : String) (h : pyTruthy v = false) :
    pyGet v k = PyVal.none := by
  cases v with
  | dict kvs => cases kvs with
    | nil => rfl
    | cons a t => simp [pyTruthy] at h
  | _ => rfl

lemma pyEq_str_iff {v : PyVal} {s : String} : pyEq v (PyVal.str s) = true ↔ v = PyVal.str s := by
  cases v <;> simp [pyEq, pyBeq]

lemma pyTruthy_str_iff {s : String} : pyTruthy (PyVal.str s) = true ↔ s ≠ "" := by
  simp [pyTruthy]

lemma collectFromActions_sound {acc : PyVal} {k : String} {l : List PyVal}
    {ms : List (Int × PyVal)} (h : collectFromActions acc k l = some ms) :
    ∀ e ∈ ms, pyInt? k = some e.1 ∧ (∃ kvs, e.2 = PyVal.dict kvs) ∧
      ∃ a ∈ l, actionMatchesB acc a = true := by
  induction l generalizing ms with
  | nil =>
    rw [collectFromActions] at h
    cases h; intro e he; cases he
  | cons a rest ih =>
    intro e he
    rw [collectFromActions] at h
    cases h1 : dictGetD a "payload" (PyVal.dict []) with
    | none => simp only [h1] at h; cases h
    | some pl =>
      simp only [h1] at h
      cases h2 : dictGetD pl "contentItem" (PyVal.dict []) with
      | none => simp only [h2] at h; cases h
      | some ci =>
        simp only [h2] at h
        cases h3 : dictGetD ci "sourceAccount" PyVal.none with
        | none => simp only [h3] at h; cases h
        | some pa =>
          simp only [h3] at h
          by_cases hp : pyEq pa acc = true
          · rw [if_pos hp] at h
            cases h4 : pyInt? k with
            | none => simp only [h4] at h; cases h
            | some n =>
              simp only [h4] at h
              cases h5 : collectFromActions acc k rest with
              | none => simp only [h5] at h; cases h
              | some ms' =>
                simp only [h5] at h
                have hms : ms = (n, ci) :: ms' := by injection h with h'; exact h'.symm
                subst hms
                rcases List.mem_cons.mp he with he | he
                · subst he
                  refine ⟨rfl, dictGetD_isDict h3, a, by simp, ?_⟩
                  simp [actionMatchesB, h1, h2, h3, hp]
                · obtain ⟨hi, hd, a', ha', hm⟩ := ih h5 e he
                  exact ⟨h4.symm.trans hi, hd, a', by simp [ha'], hm⟩
          · rw [if_neg hp] at h
            obtain ⟨hi, hd, a', ha', hm⟩ := ih h e he
            exact ⟨hi, hd, a', by simp [ha'], hm⟩

lemma collectMatches_sound {acc : PyVal} {items : List (String × PyVal)}
    {m : List (Int × PyVal)} (h : collectMatches acc items = some m) :
    ∀ e ∈ m, (∃ kvs, e.2 = PyVal.dict kvs) ∧
      ∃ kp ∈ items, pyInt? kp.1 = some e.1 ∧ presetEntryMatchesB acc kp = true := by
  induction items generalizing m with
  | nil =>
    rw [collectMatches] at h
    cases h; intro e he; cases he
  | cons kp rest ih =>
    intro e he
    rw [collectMatches] at h
    cases h1 : dictGetD kp.2 "actions" (PyVal.list []) with
    | none => simp only [h1] at h; cases h
    | some acts =>
      simp only [h1] at h
      cases h2 : pyIter acts with
      | none => simp only [h2] at h; cases h
      | some l =>
        simp only [h2] at h
        cases h3 : collectFromActions acc kp.1 l with
        | none => simp only [h3] at h; cases h
        | some here =>
          simp only [h3] at h
          cases h4 : collectMatches acc rest with
          | none => simp only [h4] at h; cases h
          | some there =>
            simp only [h4] at h
            have hms : m = here ++ there := by injection h with h'; exact h'.symm
            subst hms
            rcases List.mem_append.mp he with he | he
            · obtain ⟨hi, hd, a, ha, hm⟩ := collectFromActions_sound h3 e he
              refine ⟨hd, kp, by simp, hi, ?_⟩
              simp only [presetEntryMatchesB, h1, h2]
              exact List.any_eq_true.mpr ⟨a, ha, hm⟩
            · obtain ⟨hd, kp', hkp', hi, hm⟩ := ih h4 e he
              exact ⟨hd, kp', by simp [hkp'], hi, hm⟩

lemma collectMatches_nil {acc : PyVal} {items : List (String × PyVal)}
    {m : List (Int × PyVal)} (h : collectMatches acc items = some m)
    (hno : ∀ kp ∈ items, presetEntryMatchesB acc kp = false) : m = [] := by
  cases m with
  | nil => rfl
  | cons e t =>
    obtain ⟨_, kp, hkp, _, hB⟩ := collectMatches_sound h e (by simp)
    rw [hno kp hkp] at hB
    cases hB

lemma findLocationMatch_eq {loc : PyVal} {m : List (Int × PyVal)}
    (hd : ∀ e ∈ m, ∃ kvs, e.2 = PyVal.dict kvs) :
    findLocationMatch loc m =
      some ((m.find? fun e => pyEq (pyGet e.2 "location") loc).map Prod.fst) := by
  induction m with
  | nil => rfl
  | cons e rest ih =>
    obtain ⟨kvs, hk⟩ := hd e (by simp)
    rw [findLocationMatch]
    simp only [dictGetD_of_dict "location" hk]
    by_cases hp : pyEq (pyGet e.2 "location") loc = true
    · rw [if_pos hp]
      simp [List.find?_cons, hp]
    · have hpf : pyEq (pyGet e.2 "location") loc = false := by simpa using hp
      rw [if_neg hp, ih fun x hx => hd x (List.mem_cons_of_mem _ hx)]
      simp [List.find?_cons, hpf]

lemma findLocationMatch_mem {loc : PyVal} {m : List (Int × PyVal)} {n : Int}
    (h : findLocationMatch loc m = some (some n)) : ∃ ci, (n, ci) ∈ m := by
  induction m with
  | nil => cases h
  | cons e rest ih =>
    rw [findLocationMatch] at h
    cases hg : dictGetD e.2 "location" PyVal.none with
    | none => simp only [hg] at h; cases h
    | some l =>
      simp only [hg] at h
      by_cases hp : pyEq l loc = true
      · rw [if_pos hp] at h
        cases h
        exact ⟨e.2, by simp⟩
      · rw [if_neg hp] at h
        obtain ⟨ci, hci⟩ := ih h
        exact ⟨ci, by simp [hci]⟩

lemma normalizePlayback_spec {playback preset : PyVal} {st pn : Int}
    (h : normalizePlayback playback preset = some (st, pn)) :
    (st = 1 ↔ pyGet (pyGet playback "state") "status" = PyVal.str "PLAY") ∧
    (st = 1 → find_current_preset playback preset = some pn) ∧
    (st = 0 → pn = 0) ∧ (st = 0 ∨ st = 1) := by
  rw [normalizePlayback] at h
  cases h1 : dictGetD playback "state" PyVal.none with
  | none => simp only [h1] at h; cases h
  | some stv =>
    simp only [h1] at h
    have hstv : stv = pyGet playback "state" := dictGetD_some h1
    by_cases ht : pyTruthy stv = true
    · rw [if_pos ht] at h
      cases h2 : dictGetD stv "status" PyVal.none with
      | none => simp only [h2] at h; cases h
      | some status =>
        simp only [h2] at h
        have hst : status = pyGet stv "status" := dictGetD_some h2
        by_cases hp : pyEq status (PyVal.str "PLAY") = true
        · rw [if_pos hp] at h
          cases h3 : find_current_preset playback preset with
          | none => simp only [h3] at h; cases h
          | some n =>
            simp only [h3] at h
            injection h with h'
            have hs : st = 1 := (congrArg Prod.fst h').symm
            have hn : pn = n := (congrArg Prod.snd h').symm
            subst hs; subst hn
            have hplay : pyGet (pyGet playback "state") "status" = PyVal.str "PLAY" := by
              rw [← hstv, ← hst]
              exact pyEq_str_iff.mp hp
            exact ⟨by simp [hplay], fun _ => rfl, fun hc => absurd hc (by decide), Or.inr rfl⟩
        · rw [if_neg hp] at h
          injection h with h'
          have hs : st = 0 := (congrArg Prod.fst h').symm
          have hn : pn = 0 := (congrArg Prod.snd h').symm
          subst hs; subst hn
          have hplay : pyGet (pyGet playback "state") "status" ≠ PyVal.str "PLAY" := by
            rw [← hstv, ← hst]
            intro hc
            exact hp (pyEq_str_iff.mpr hc)
          exact ⟨by simp [hplay], fun hc => absurd hc (by decide), fun _ => rfl, Or.inl rfl⟩
    · rw [if_neg ht] at h
      injection h with h'
      have hs : st = 0 := (congrArg Prod.fst h').symm
      have hn : pn = 0 := (congrArg Prod.snd h').symm
      subst hs; subst hn
      have hplay : pyGet (pyGet playback "state") "status" ≠ PyVal.str "PLAY" := by
        rw [← hstv, pyGet_of_not_truthy _ (by simpa using ht)]
        intro hc; cases hc
      exact ⟨by simp [hplay], fun hc => absurd hc (by decide), fun _ => rfl, Or.inl rfl⟩

lemma normalizeSource_spec {playback v : PyVal} (h : normalizeSource playback = some v) :
    (v = PyVal.str "" ∧ pyTruthy (pyGet (pyGet playback "source") "sourceDisplayName") = false) ∨
    (∃ s : String, pyGet (pyGet playback "source") "sourceDisplayName" = PyVal.str s ∧ s ≠ "" ∧
      v = PyVal.int ((sourceMapping.lookup (pyUpper s)).getD 0)) := by
  rw [normalizeSource] at h
  cases h1 : dictGetD playback "source" PyVal.none with
  | none => simp only [h1] at h; cases h
  | some src =>
    simp only [h1] at h
    have hsrc : src = pyGet playback "source" := dictGetD_some h1
    by_cases ht : pyTruthy src = true
    · rw [if_pos ht] at h
      cases h2 : dictGetD src "sourceDisplayName" PyVal.none with
      | none => simp only [h2] at h; cases h
      | some dn =>
        simp only [h2] at h
        have hdn : dn = pyGet src "sourceDisplayName" := dictGetD_some h2
        by_cases htd : pyTruthy dn = true
        · rw [if_pos htd] at h
          cases h3 : pyUpperStr dn with
          | none => simp only [h3] at h; cases h
          | some u =>
            simp only [h3] at h
            cases dn with
            | str s =>
              right
              injection h with h'
              injection h3 with h3'
              refine ⟨s, ?_, pyTruthy_str_iff.mp htd, ?_⟩
              · rw [← hsrc]; exact hdn.symm
              · rw [← h', ← h3']
            | none => exact absurd h3 (by simp [pyUpperStr])
            | bool b => exact absurd h3 (by simp [pyUpperStr])
            | int n => exact absurd h3 (by simp [pyUpperStr])
            | list xs => exact absurd h3 (by simp [pyUpperStr])
            | dict kvs => exact absurd h3 (by simp [pyUpperStr])
        · rw [if_neg htd] at h
          left
          injection h with h'
          refine ⟨h'.symm, ?_⟩
          rw [← hsrc, ← hdn]
          simpa using htd
    · rw [if_neg ht] at h
      left
      injection h with h'
      refine ⟨h'.symm, ?_⟩
      rw [← hsrc, pyGet_of_not_truthy _ (by simpa using ht)]
      rfl

lemma get_playback_status_inv {power playback preset : PyVal} {r : NormalizedStatus}
    (h : get_playback_status power playback preset = some r) :
    normalizePlayback playback preset = some (r.playback, r.preset_number) ∧
    normalizeSource playback = some r.source ∧
    dictGetD power "power" PyVal.none = some r.power_state := by
  rw [get_playback_status] at h
  cases h1 : normalizePlayback playback preset with
  | none => simp only [h1] at h; cases h
  | some sp =>
    simp only [h1] at h
    cases h2 : normalizeSource playback with
    | none => simp only [h2] at h; cases h
    | some src =>
      simp only [h2] at h
      cases h3 : dictGetD power "power" PyVal.none with
      | none => simp only [h3] at h; cases h
      | some pw =>
        simp only [h3] at h
        injection h with h'
        subst h'
        exact ⟨rfl, rfl, rfl⟩

/-! ## Claims about the Preset Matcher -/

/-- C1: for every snapshot and preset table in which more than one preset
action content item matches the snapshot's `sourceAccount`, the matcher
returns the preset number of the first account-matching entry (in table
iteration order) whose `location` equals the snapshot's location exactly,
and the preset number of the first account-matching entry when no tied
entry matches on location. -/
theorem C1_location_tiebreak (np pd acc loc ps : PyVal)
    (items : List (String × PyVal)) (m : List (Int × PyVal))
    (hacc : npAccountOf np = some acc) (hloc : npLocationOf np = some loc)
    (hps : presetsOf pd = some ps) (hit : pyItems ps = some items)
    (hm : collectMatches acc items = some m) (hlen : 2 ≤ m.length) :
    find_current_preset np pd =
      some (((m.find? fun e => pyEq (pyGet e.2 "location") loc).map Prod.fst).getD m.headI.1) := by
  have hd : ∀ e ∈ m, ∃ kvs, e.2 = PyVal.dict kvs := fun e he => (collectMatches_sound hm e he).1
  cases m with
  | nil => simp at hlen
  | cons e₀ m' =>
    cases m' with
    | nil => simp at hlen
    | cons e₁ rest =>
      simp only [find_current_preset, hacc, hloc, hps, hit, hm]
      rw [findLocationMatch_eq hd]
      cases hf : (e₀ :: e₁ :: rest).find? fun e => pyEq (pyGet e.2 "location") loc with
      | none => simp
      | some e => simp

/-- C1 witness: spec §8 table (presets 1 and 2 on `spotify:user1`, preset
2 at `playlistB`) with a snapshot at `playlistB`; the hypotheses of
`C1_location_tiebreak` hold and its conclusion evaluates to preset 2. -/
theorem C1_location_tiebreak_witness :
    find_current_preset npA pdA =
      some (((mA.find? fun e => pyEq (pyGet e.2 "location") (PyVal.str "playlistB")).map
        Prod.fst).getD mA.headI.1) ∧
    find_current_preset npA pdA = some 2 :=
  ⟨C1_location_tiebreak npA pdA (PyVal.str "spotify:user1") (PyVal.str "playlistB")
    (PyVal.dict itemsA) itemsA mA rfl rfl rfl rfl rfl (by decide), rfl⟩

/-- C2: when no preset action content item matches the snapshot account
the matcher returns 0, and when every account-matching entry carries one
and the same preset number (in particular when exactly one preset
matches), it returns that number irrespective of any location. -/
theorem C2_zero_and_unique (np pd acc loc ps : PyVal)
    (items : List (String × PyVal)) (m : List (Int × PyVal))
    (hacc : npAccountOf np = some acc) (hloc : npLocationOf np = some loc)
    (hps : presetsOf pd = some ps) (hit : pyItems ps = some items)
    (hm : collectMatches acc items = some m) :
    ((∀ kp ∈ items, presetEntryMatchesB acc kp = false) → find_current_preset np pd = some 0) ∧
    (∀ n : Int, m ≠ [] → (∀ e ∈ m, e.1 = n) → find_current_preset np pd = some n) := by
  constructor
  · intro hno
    have hmn : m = [] := collectMatches_nil hm hno
    subst hmn
    simp only [find_current_preset, hacc, hloc, hps, hit, hm]
  · intro n hne hall
    have hd : ∀ e ∈ m, ∃ kvs, e.2 = PyVal.dict kvs := fun e he => (collectMatches_sound hm e he).1
    cases m with
    | nil => exact absurd rfl hne
    | cons e₀ m' =>
      cases m' with
      | nil =>
        simp only [find_current_preset, hacc, hloc, hps, hit, hm]
        rw [hall e₀ (by simp)]
      | cons e₁ rest =>
        simp only [find_current_preset, hacc, hloc, hps, hit, hm]
        rw [findLocationMatch_eq hd]
        cases hf : (e₀ :: e₁ :: rest).find? fun e => pyEq (pyGet e.2 "location") loc with
        | none => simp [hall e₀ (by simp)]
        | some e =>
          have he : e ∈ e₀ :: e₁ :: rest := List.mem_of_find?_eq_some hf
          simp [hall e he]

/-- Snapshot on an account matched by no preset of `pdA`. -/
def npB : PyVal :=
  PyVal.dict [("container", PyVal.dict [("contentItem", PyVal.dict
    [("sourceAccount", PyVal.str "deezer:userX")])])]

/-- C2 witness: no entry of the spec §8 table matches `deezer:userX`, so
the matcher returns 0. -/
theorem C2_zero_and_unique_witness : find_current_preset npB pdA = some 0 :=
  (C2_zero_and_unique npB pdA (PyVal.str "deezer:userX") PyVal.none (PyVal.dict itemsA)
      itemsA [] rfl rfl rfl rfl rfl).1 (by
        intro kp hkp
        rcases List.mem_cons.mp hkp with rfl | hkp
        · rfl
        · rcases List.mem_cons.mp hkp with rfl | hkp
          · rfl
          · exact absurd hkp (List.not_mem_nil kp))

/-- Snapshot with no `container.contentItem.sourceAccount` at all. -/
def npNoAcc : PyVal := PyVal.dict []

/-- Table whose preset 1 action content item also lacks `sourceAccount`. -/
def pdNoAcc : PyVal :=
  PyVal.dict [("presets", PyVal.dict [("presets", PyVal.dict
    [("1", PyVal.dict [("actions", PyVal.list [PyVal.dict [("payload", PyVal.dict
      [("contentItem", PyVal.dict [("location", PyVal.str "somewhere")])])]])])])])]

/-- C10: an absent snapshot `sourceAccount` (extracted as `None`) matches
preset action content items that also lack `sourceAccount`, so such a
snapshot can yield a non-zero preset number; and every non-zero result is
the integer form of a key of the preset table one of whose action content
items' `sourceAccount` equals the snapshot's (possibly absent) account. -/
theorem C10_absent_account :
    (npAccountOf npNoAcc = some PyVal.none ∧ find_current_preset npNoAcc pdNoAcc = some 1) ∧
    (∀ np pd : PyVal, ∀ n : Int, find_current_preset np pd = some n → n ≠ 0 →
      ∃ acc, npAccountOf np = some acc ∧
        ∃ ps items, presetsOf pd = some ps ∧ pyItems ps = some items ∧
          ∃ kp, kp ∈ items ∧ pyInt? kp.1 = some n ∧ presetEntryMatchesB acc kp = true) := by
  constructor
  · exact ⟨rfl, rfl⟩
  · intro np pd n h hn
    rw [find_current_preset] at h
    cases hacc : npAccountOf np with
    | none => simp only [hacc] at h; cases h
    | some acc =>
      simp only [hacc] at h
      cases hloc : npLocationOf np with
      | none => simp only [hloc] at h; cases h
      | some loc =>
        simp only [hloc] at h
        cases hps : presetsOf pd with
        | none => simp only [hps] at h; cases h
        | some ps =>
          simp only [hps] at h
          cases hit : pyItems ps with
          | none => simp only [hit] at h; cases h
          | some items =>
            simp only [hit] at h
            cases hm : collectMatches acc items with
            | none => simp only [hm] at h; cases h
            | some m =>
              simp only [hm] at h
              refine ⟨acc, rfl, ps, items, rfl, hit, ?_⟩
              cases m with
              | nil => exact absurd (Option.some.inj h).symm hn
              | cons e₀ m' =>
                cases m' with
                | nil =>
                  have h' : e₀.1 = n := Option.some.inj h
                  obtain ⟨_, kp, hkp, hi, hB⟩ := collectMatches_sound hm e₀ (by simp)
                  exact ⟨kp, hkp, h' ▸ hi, hB⟩
                | cons e₁ rest =>
                  have h2 : (match findLocationMatch loc (e₀ :: e₁ :: rest) with
                    | some (some k) => some k
                    | some Option.none => some e₀.1
                    | Option.none => (Option.none : Option Int)) = some n := h
                  cases hf : findLocationMatch loc (e₀ :: e₁ :: rest) with
                  | none => simp only [hf] at h2; cases h2
                  | some r =>
                    simp only [hf] at h2
                    cases r with
                    | none =>
                      have h' : e₀.1 = n := Option.some.inj h2
                      obtain ⟨_, kp, hkp, hi, hB⟩ := collectMatches_sound hm e₀ (by simp)
                      exact ⟨kp, hkp, h' ▸ hi, hB⟩
                    | some k =>
                      have h' : k = n := Option.some.inj h2
                      obtain ⟨ci, hci⟩ := findLocationMatch_mem hf
                      obtain ⟨_, kp, hkp, hi, hB⟩ := collectMatches_sound hm (k, ci) hci
                      exact ⟨kp, hkp, h' ▸ hi, hB⟩

/-- C10 witness: the soundness half of `C10_absent_account` applied to the
account-less snapshot and table, at the non-zero result 1. -/
theorem C10_absent_account_witness :
    ∃ acc, npAccountOf npNoAcc = some acc ∧
      ∃ ps items, presetsOf pdNoAcc = some ps ∧ pyItems ps = some items ∧
        ∃ kp, kp ∈ items ∧ pyInt? kp.1 = some 1 ∧ presetEntryMatchesB acc kp = true :=
  C10_absent_account.2 npNoAcc pdNoAcc 1 rfl (by decide)

/-! ## Claims about the State Normalizer -/

def powerOn : PyVal := PyVal.dict [("power", PyVal.bool true)]

/-- A playing snapshot with no container data. -/
def playbackBare : PyVal := PyVal.dict [("state", PyVal.dict [("status", PyVal.str "PLAY")])]

/-- C3 counterexample: with a playing snapshot and an absent (`None`)
preset cache the normalization raises (`None.get` inside
`find_current_preset`), so it is not total. -/
theorem C3_not_total_cex :
    get_playback_status powerOn playbackBare PyVal.none = Option.none := rfl

/-- C3 (amended): on dict-shaped snapshots whose `state` and `source`
fields are absent or falsy the normalization never raises and returns the
degraded record — but the defaults are the raw power field (`None` when
absent), playback 0, source `''` (the empty string, not the integer 0)
and preset 0. -/
theorem C3_defaults (power playback preset : PyVal)
    (kvsP kvsQ : List (String × PyVal)) (hP : power = PyVal.dict kvsP)
    (hQ : playback = PyVal.dict kvsQ)
    (hstate : pyTruthy (pyGet playback "state") = false)
    (hsrc : pyTruthy (pyGet playback "source") = false) :
    get_playback_status power playback preset =
      some ⟨pyGet power "power", 0, PyVal.str "", 0⟩ := by
  have h1 : normalizePlayback playback preset = some (0, 0) := by
    rw [normalizePlayback]
    simp only [dictGetD_of_dict "state" hQ]
    rw [if_neg (by simp [hstate])]
  have h2 : normalizeSource playback = some (PyVal.str "") := by
    rw [normalizeSource]
    simp only [dictGetD_of_dict "source" hQ]
    rw [if_neg (by simp [hsrc])]
  rw [get_playback_status]
  simp only [h1, h2, dictGetD_of_dict "power" hP]

/-- C3 witness: entirely empty snapshots with an absent preset cache give
the degraded record without raising. -/
theorem C3_defaults_witness :
    get_playback_status (PyVal.dict []) (PyVal.dict []) PyVal.none =
      some ⟨pyGet (PyVal.dict []) "power", 0, PyVal.str "", 0⟩ :=
  C3_defaults (PyVal.dict []) (PyVal.dict []) PyVal.none [] [] rfl rfl rfl rfl

/-- C6 counterexample: with the `source` field absent the normalized
source is the empty string `''`, not the integer code 0. -/
theorem C6_source_cex :
    get_playback_status (PyVal.dict []) (PyVal.dict []) PyVal.none =
      some ⟨PyVal.none, 0, PyVal.str "", 0⟩ ∧ PyVal.str "" ≠ PyVal.int 0 :=
  ⟨rfl, fun hc => PyVal.noConfusion hc⟩

/-- C6 (amended): whenever the normalization returns a record, its source
equals the enumeration code of the upper-cased display name when that
display name is a non-empty string (unrecognized names giving code 0),
and equals the empty string `''` — not the integer 0 — whenever the
display name (or the whole source field) is absent or falsy. -/
theorem C6_source_mapping (power playback preset : PyVal) (r : NormalizedStatus)
    (h : get_playback_status power playback preset = some r) :
    (∀ s : String, pyGet (pyGet playback "source") "sourceDisplayName" = PyVal.str s →
      s ≠ "" → r.source = PyVal.int ((sourceMapping.lookup (pyUpper s)).getD 0)) ∧
    (pyTruthy (pyGet (pyGet playback "source") "sourceDisplayName") = false →
      r.source = PyVal.str "") := by
  obtain ⟨-, hs, -⟩ := get_playback_status_inv h
  rcases normalizeSource_spec hs with ⟨hv, hf⟩ | ⟨s, hdn, hne, hv⟩
  · constructor
    · intro s hdn hne
      rw [hdn] at hf
      exact absurd (pyTruthy_str_iff.mpr hne) (by simp [hf])
    · intro _
      exact hv
  · constructor
    · intro s' hdn' hne'
      rw [hdn] at hdn'
      injection hdn' with he
      subst he
      exact hv
    · intro hfal
      rw [hdn] at hfal
      exact absurd (pyTruthy_str_iff.mpr hne) (by simp [hfal])

/-- Snapshot whose only content is a Spotify display name. -/
def playbackSpot : PyVal :=
  PyVal.dict [("source", PyVal.dict [("sourceDisplayName", PyVal.str "Spotify")])]

def statusSpot : NormalizedStatus := ⟨PyVal.none, 0, PyVal.int 5, 0⟩

/-- C6 witness: `"Spotify"` normalizes to code 5 = the mapped value of its
upper-cased display name. -/
theorem C6_source_mapping_witness :
    get_playback_status (PyVal.dict []) playbackSpot PyVal.none = some statusSpot ∧
    statusSpot.source = PyVal.int ((sourceMapping.lookup (pyUpper "Spotify")).getD 0) :=
  ⟨rfl, (C6_source_mapping (PyVal.dict []) playbackSpot PyVal.none statusSpot rfl).1
    "Spotify" rfl (by decide)⟩

/-- C7: the playback flag is 1 exactly when the snapshot's `state.status`
equals `'PLAY'`; when it is 1 the preset number is the Preset Matcher's
result, and when it is 0 the preset number is 0. -/
theorem C7_playback_flag (power playback preset : PyVal) (r : NormalizedStatus)
    (h : get_playback_status power playback preset = some r) :
    (r.playback = 1 ↔ pyGet (pyGet playback "state") "status" = PyVal.str "PLAY") ∧
    (r.playback = 1 → find_current_preset playback preset = some r.preset_number) ∧
    (r.playback = 0 → r.preset_number = 0) ∧ (r.playback = 0 ∨ r.playback = 1) := by
  obtain ⟨hp, -, -⟩ := get_playback_status_inv h
  exact normalizePlayback_spec hp

/-- A playing snapshot whose content matches preset 2 of `pdA`. -/
def playbackPlay : PyVal :=
  PyVal.dict [("state", PyVal.dict [("status", PyVal.str "PLAY")]),
    ("container", PyVal.dict [("contentItem", PyVal.dict
      [("sourceAccount", PyVal.str "spotify:user1"), ("location", PyVal.str "playlistB")])])]

def statusPlay : NormalizedStatus := ⟨PyVal.bool true, 1, PyVal.str "", 2⟩

/-- C7 witness: a playing snapshot evaluates to flag 1 with the matcher's
preset number. -/
theorem C7_playback_flag_witness :
    get_playback_status powerOn playbackPlay pdA = some statusPlay ∧
    (statusPlay.playback = 1 ↔
      pyGet (pyGet playbackPlay "state") "status" = PyVal.str "PLAY") ∧
    find_current_preset playbackPlay pdA = some statusPlay.preset_number :=
  ⟨rfl, (C7_playback_flag powerOn playbackPlay pdA statusPlay rfl).1,
    (C7_playback_flag powerOn playbackPlay pdA statusPlay rfl).2.1 rfl⟩

/-! ## Claims about the Session Manager -/

/-- A client whose connection succeeds but whose preset fetch raises. -/
def clientFetchFail : Client := ⟨"dev-1", true, Option.none, true⟩

def authOk : Auth := ⟨true, true, true⟩

/-- The initial process state: no speaker instance, `preset = None`. -/
def s0 : AppState := ⟨Option.none, PyVal.none⟩

/-- C4 counterexample: with login and connection succeeding but the preset
fetch failing, initialize returns the 500 `InitializationError` instead of
the device identifier. -/
theorem C4_fetch_failure_cex :
    (initialize_speaker authOk clientFetchFail s0).1 =
      Except.error ApiError.initializationError ∧
    (initialize_speaker authOk clientFetchFail s0).1 ≠
      Except.ok clientFetchFail.deviceId := by
  refine ⟨rfl, ?_⟩
  intro hc
  exact Except.noConfusion hc

/-- C4 (amended): a preset-fetch failure aborts initialization with
`InitializationError`; the speaker global nonetheless keeps pointing at
the new connected client while the preset cache keeps its old value. -/
theorem C4_fetch_failure_aborts (auth : Auth) (c : Client) (s : AppState)
    (hl : auth.loginOk = true) (hc : c.connectOk = true)
    (hp : c.productSettings = Option.none) :
    initialize_speaker auth c s =
      (Except.error ApiError.initializationError, { s with speaker := some c }) := by
  simp [initialize_speaker, hl, hc, hp]

/-- C4 witness: the amended behaviour at the concrete failing fetch. -/
theorem C4_fetch_failure_aborts_witness :
    initialize_speaker authOk clientFetchFail s0 =
      (Except.error ApiError.initializationError, { s0 with speaker := some clientFetchFail }) :=
  C4_fetch_failure_aborts authOk clientFetchFail s0 rfl rfl rfl

/-- A connected client whose remote teardown fails. -/
def clientStuck : Client := ⟨"dev-2", true, some (PyVal.dict []), false⟩

/-- A state holding a live session on `clientStuck`. -/
def sLive : AppState := ⟨some clientStuck, PyVal.none⟩

/-- C5 counterexample: when the underlying disconnect fails, the endpoint
reports `DisconnectionError` but the in-memory reference is NOT cleared —
the speaker global still holds the old client. -/
theorem C5_not_cleared_cex :
    (disconnect_speaker sLive).1 = Except.error ApiError.disconnectionError ∧
    (disconnect_speaker sLive).2.speaker = some clientStuck ∧
    some clientStuck ≠ (Option.none : Option Client) :=
  ⟨rfl, rfl, fun hc => Option.noConfusion hc⟩

/-- C5 (amended): a failing client disconnect is reported as
`DisconnectionError` and leaves the state — including the session
reference — entirely unchanged; the reference is cleared only on a
successful disconnect. -/
theorem C5_cleared_only_on_success (s : AppState) (c : Client)
    (hs : s.speaker = some c) (hd : c.disconnectOk = false) :
    disconnect_speaker s = (Except.error ApiError.disconnectionError, s) := by
  simp [disconnect_speaker, hs, hd]

/-- C5 witness: the failing teardown at the concrete stuck client. -/
theorem C5_cleared_only_on_success_witness :
    disconnect_speaker sLive = (Except.error ApiError.disconnectionError, sLive) :=
  C5_cleared_only_on_success sLive clientStuck rfl rfl

/-- C8: with a session present and an invalid token, exactly one refresh
is attempted; on refresh success the device call proceeds, on refresh
failure the error surfaces as the auth failure and the device call is
never attempted. -/
theorem C8_single_refresh (auth : Auth) (s : AppState) (c : Client)
    (hs : s.speaker = some c) (hv : auth.tokenValid = false) :
    (endpoint_trace auth s).2.count Event.refreshAttempt = 1 ∧
    (auth.refreshOk = true →
      (endpoint_trace auth s).1 = Except.ok () ∧
      Event.deviceCall ∈ (endpoint_trace auth s).2) ∧
    (auth.refreshOk = false →
      (endpoint_trace auth s).1 = Except.error ApiError.authError ∧
      Event.deviceCall ∉ (endpoint_trace auth s).2) := by
  cases hr : auth.refreshOk with
  | true => simp [endpoint_trace, hs, hv, hr]
  | false => simp [endpoint_trace, hs, hv, hr]

def authExpired : Auth := ⟨true, false, true⟩

/-- C8 witness: an expired token with a succeeding refresh produces one
refresh attempt followed by the device call. -/
theorem C8_single_refresh_witness :
    (endpoint_trace authExpired sLive).2.count Event.refreshAttempt = 1 ∧
    (endpoint_trace authExpired sLive).1 = Except.ok () ∧
    Event.deviceCall ∈ (endpoint_trace authExpired sLive).2 := by
  have h := C8_single_refresh authExpired sLive clientStuck rfl rfl
  exact ⟨h.1, (h.2.1 rfl).1, (h.2.1 rfl).2⟩

/-- C9: with no session, both the guarded endpoints and disconnect fail
with the not-initialized error, perform no refresh and no device call,
and leave the state unchanged. -/
theorem C9_no_session (auth : Auth) (s : AppState) (hs : s.speaker = Option.none) :
    endpoint_trace auth s = (Except.error ApiError.speakerNotInitialized, []) ∧
    disconnect_speaker s = (Except.error ApiError.speakerNotInitialized, s) := by
  constructor
  · simp [endpoint_trace, hs]
  · simp [disconnect_speaker, hs]

/-- C9 witness: the fresh process state rejects both operations. -/
theorem C9_no_session_witness :
    endpoint_trace authOk s0 = (Except.error ApiError.speakerNotInitialized, []) ∧
    disconnect_speaker s0 = (Except.error ApiError.speakerNotInitialized, s0) :=
  C9_no_session authOk s0 rfl
